import Mathlib

/-!
Verification of the room/session core of the wombokombo game server
(src/src/game/room.cpp), as a shallow embedding in Lean 4.

Modelling conventions:
- `std::unordered_map<std::string, Player>` becomes an association list
  `List (String × Player)`; `emplace` only inserts for an absent key, `operator[]`
  assigns in place, `erase` removes the (unique) entry with the key.
- The monotonic clock is a `Nat` argument `now` (seconds); `std::chrono` elapsed
  seconds `now - t` is Nat subtraction, which agrees with the signed C++ count on
  monotone clocks.
- Every call to the C++ `broadcast(...)` helper is recorded as one `Event` in the
  operation's output list; actual fan-out to recipients (and the configured
  broadcast function, absent or not) is outside the properties studied here.
- The per-player input processor (`Player::process_input`) is external to the
  core; `update` takes an arbitrary function `f : Player → Player` standing for
  one `process_input(dt)` step applied to each connected player.
-/

namespace Game

/-- Modelled from the spec: the Player record (its header is not under src/).
Fields follow §3 of the spec: identity, presentation fields, readiness,
position, queued input and the last input tick. Positions are modelled as
integers (the claims never depend on fractional coordinates). -/
structure Player where
  id : String
  name : String
  display_name : String
  ready : Bool := false
  x : Int := 0
  y : Int := 0
  pending_actions : List String := []
  last_input_tick : Int := 0
deriving DecidableEq, Repr

/-- Modelled from the spec: `Player::spawn` places the player at the given
spawn coordinates. -/
def Player.spawn (p : Player) (x y : Int) : Player :=
  { p with x := x, y := y }

/-- Room lifecycle states, from `RoomState` in the source. -/
inductive RoomState where
  | WAITING
  | PLAYING
  | FINISHED
deriving DecidableEq, Repr

/-- Modelled from the spec: the fixed grace-period threshold `GRACE_SECONDS`
(declared in the header, not under src/); the spec fixes it only as a positive
constant number of seconds, so a representative value is used. -/
def GRACE_SECONDS : Nat := 30

/-- Modelled from the spec: the fixed ordered 4-slot spawn-position table
(declared in the header, not under src/); concrete coordinates are
representative, the claims do not depend on their values. -/
def spawn_positions : Nat → Int × Int
  | 0 => (100, 300)
  | 1 => (700, 300)
  | 2 => (100, 100)
  | _ => (700, 100)

/-- One message handed to the C++ `broadcast` helper. Fields mirror the JSON
payloads built in room.cpp (constant fields such as `round`, map metadata and
the placeholder timer are kept only where a claim mentions them). -/
inductive Event where
  | player_ready_state (player_id : String) (ready : Bool)
  | chat_message (player_id : String) (player_name : String) (message : String)
  | game_start (round : Nat) (spawn_points : List (String × Int × Int))
  | game_state (tick : Nat)
deriving DecidableEq, Repr

/-- `true` exactly on `game_start` events. -/
def Event.isGameStart : Event → Bool
  | .game_start _ _ => true
  | _ => false

/-- Association-list lookup, mirroring `map.find(k)` on a map with unique keys. -/
def afind (l : List (String × Player)) (k : String) : Option Player :=
  match l with
  | [] => none
  | (k', v) :: t => if k' = k then some v else afind t k

/-- `map.erase(it)` for the entry with key `k` (unique keys). -/
def aerase (l : List (String × Player)) (k : String) : List (String × Player) :=
  match l with
  | [] => []
  | (k', v) :: t => if k' = k then t else (k', v) :: aerase t k

/-- `map[k] = v`: assign in place if the key exists, else insert. -/
def aset (l : List (String × Player)) (k : String) (v : Player) :
    List (String × Player) :=
  match l with
  | [] => [(k, v)]
  | (k', v') :: t => if k' = k then (k, v) :: t else (k', v') :: aset t k v

/-- `map.emplace(k, v)`: insert only when the key is absent. -/
def aemplace (l : List (String × Player)) (k : String) (v : Player) :
    List (String × Player) :=
  if (afind l k).isSome then l else l ++ [(k, v)]

/-- Mutate the entry at key `k` in place, as `it->second.field = ...` does. -/
def amodify (l : List (String × Player)) (k : String) (f : Player → Player) :
    List (String × Player) :=
  match l with
  | [] => []
  | (k', v) :: t => if k' = k then (k', f v) :: t else (k', v) :: amodify t k f

/-- The Room state, from `Room` in room.cpp (members declared in the header;
their set and initial values follow the constructor together with §3 of the
spec: a room is created `WAITING`, with empty maps, tick 0, spawn cursor 0 and
no grace timestamp). -/
structure Room where
  id : String
  max_players : Int
  state : RoomState := .WAITING
  players : List (String × Player) := []
  disconnected_players : List (String × Player) := []
  tick : Nat := 0
  next_spawn : Nat := 0
  empty_since : Option Nat := none
deriving DecidableEq, Repr

namespace Room

/-- `Room::Room(id, max_players)`. -/
def init (id : String) (max_players : Int) : Room :=
  { id := id, max_players := max_players }

/-- `Room::has_player`. -/
def has_player (r : Room) (player_id : String) : Bool :=
  (afind r.players player_id).isSome

/-- `Room::get_player`. -/
def get_player (r : Room) (player_id : String) : Option Player :=
  afind r.players player_id

/-- `Room::is_full`: `players_.size() >= max_players_` (size cast to int). -/
def is_full (r : Room) : Bool :=
  r.max_players ≤ (r.players.length : Int)

/-- `Room::is_empty`. -/
def is_empty (r : Room) : Bool :=
  r.players.isEmpty

/-- `Room::player_count`. -/
def player_count (r : Room) : Int :=
  (r.players.length : Int)

/-- `Room::add_player`: duplicate-id joins fail; an id held in
`disconnected_players_` reconnects, restoring the stored record with the
incoming name and display name; otherwise a fresh join is capacity- and
state-checked and, during play, spawn-assigned by the round-robin cursor. -/
def add_player (r : Room) (player : Player) : Room × Bool :=
  if r.has_player player.id then (r, false)
  else
    match afind r.disconnected_players player.id with
    | some stored =>
        let p := { stored with name := player.name,
                               display_name := player.display_name }
        ({ r with players := aemplace r.players p.id p,
                  disconnected_players := aerase r.disconnected_players player.id,
                  empty_since := none }, true)
    | none =>
        if r.is_full then (r, false)
        else if r.state = .FINISHED then (r, false)
        else
          let p :=
            if r.state = .PLAYING then
              let pos := spawn_positions (r.next_spawn % 4)
              player.spawn pos.1 pos.2
            else player
          let ns := if r.state = .PLAYING then r.next_spawn + 1 else r.next_spawn
          ({ r with players := aemplace r.players p.id p,
                    next_spawn := ns,
                    empty_since := none }, true)

/-- `Room::remove_player`: during play the record is saved to
`disconnected_players_`; when the room empties, either the grace period starts
(`PLAYING` with recoverable players) or a `WAITING` room finishes. -/
def remove_player (r : Room) (now : Nat) (player_id : String) : Room :=
  match afind r.players player_id with
  | none => r
  | some rec =>
      let disc :=
        if r.state = .PLAYING then aset r.disconnected_players player_id rec
        else r.disconnected_players
      let ps := aerase r.players player_id
      let r' := { r with players := ps, disconnected_players := disc }
      if ps.isEmpty then
        if r'.state = .PLAYING ∧ ¬disc.isEmpty then
          { r' with empty_since := some now }
        else if r'.state = .WAITING then
          { r' with state := .FINISHED }
        else r'
      else r'

/-- `Room::should_cleanup`. -/
def should_cleanup (r : Room) (now : Nat) : Bool :=
  if r.state = .FINISHED ∧ r.players.isEmpty then true
  else
    match r.empty_since with
    | some t => GRACE_SECONDS ≤ now - t
    | none => false

/-- `Room::all_ready`: at least two connected players, all flagged ready. -/
def all_ready (r : Room) : Bool :=
  if r.players.isEmpty then false
  else if r.players.length < 2 then false
  else r.players.all (fun e => e.2.ready)

/-- The spawn-assignment loop of `Room::start_game`, threading the round-robin
cursor over the connected players. -/
def spawnAll (l : List (String × Player)) (cursor : Nat) :
    List (String × Player) × Nat :=
  match l with
  | [] => ([], cursor)
  | (k, p) :: t =>
      let pos := spawn_positions (cursor % 4)
      let rest := spawnAll t (cursor + 1)
      ((k, p.spawn pos.1 pos.2) :: rest.1, rest.2)

/-- `Room::start_game`: a no-op unless `WAITING`; otherwise moves to
`PLAYING`, resets tick and spawn cursor, spawn-assigns every connected player
and broadcasts the game-start event. -/
def start_game (r : Room) : Room × List Event :=
  if r.state ≠ .WAITING then (r, [])
  else
    let sp := spawnAll r.players 0
    ({ r with state := .PLAYING, tick := 0,
              players := sp.1, next_spawn := sp.2 },
     [Event.game_start 1 (sp.1.map (fun e => (e.1, e.2.x, e.2.y)))])

/-- `Room::set_player_ready`: no-op for unknown ids; otherwise sets the flag,
broadcasts the ready-state event, and auto-starts when `all_ready` holds in a
`WAITING` room. -/
def set_player_ready (r : Room) (player_id : String) (ready : Bool) :
    Room × List Event :=
  match afind r.players player_id with
  | none => (r, [])
  | some _ =>
      let r1 := { r with players := amodify r.players player_id
                                      (fun p => { p with ready := ready }) }
      let evs := [Event.player_ready_state player_id ready]
      if r1.all_ready ∧ r1.state = .WAITING then
        let sg := start_game r1
        (sg.1, evs ++ sg.2)
      else (r1, evs)

/-- `Room::handle_chat`: no-op for unknown senders; otherwise broadcasts one
chat event carrying the sender id, the sender's `name` field and the message.
The room state is untouched, so only the emitted events are returned. -/
def handle_chat (r : Room) (sender_id : String) (message : String) :
    List Event :=
  match r.get_player sender_id with
  | none => []
  | some p => [Event.chat_message sender_id p.name message]

/-- `Room::update`: a no-op unless `PLAYING`; an expired grace period finishes
the room and discards disconnected players without ticking; an empty room does
not tick; otherwise the tick advances, every player runs one input-processing
step `f`, and the game-state snapshot is broadcast. -/
def update (r : Room) (f : Player → Player) (now : Nat) : Room × List Event :=
  if r.state ≠ .PLAYING then (r, [])
  else
    let graceExpired : Bool :=
      match r.empty_since with
      | some t => GRACE_SECONDS ≤ now - t
      | none => false
    if graceExpired then
      ({ r with state := .FINISHED, disconnected_players := [] }, [])
    else if r.players.isEmpty then (r, [])
    else
      ({ r with tick := r.tick + 1,
                players := r.players.map (fun e => (e.1, f e.2)) },
       [Event.game_state (r.tick + 1)])

/-- `Room::queue_input`: no-op for unknown ids; otherwise overwrites the
pending actions and the last-input-tick marker. -/
def queue_input (r : Room) (player_id : String) (tick : Int)
    (actions : List String) : Room :=
  match afind r.players player_id with
  | none => r
  | some _ =>
      { r with players := amodify r.players player_id
                 (fun p => { p with pending_actions := actions,
                                    last_input_tick := tick }) }

end Room

/-- One externally triggered mutation of a room, covering every mutating
command the dispatcher can invoke (§6 of the spec). -/
inductive Step : Room → Room → Prop
  | add (r : Room) (p : Player) : Step r (Room.add_player r p).1
  | remove (r : Room) (now : Nat) (pid : String) :
      Step r (Room.remove_player r now pid)
  | ready (r : Room) (pid : String) (b : Bool) :
      Step r (Room.set_player_ready r pid b).1
  | start (r : Room) : Step r (Room.start_game r).1
  | upd (r : Room) (f : Player → Player) (now : Nat) :
      Step r (Room.update r f now).1
  | queue (r : Room) (pid : String) (t : Int) (a : List String) :
      Step r (Room.queue_input r pid t a)

/-- Room states reachable from a freshly constructed room by dispatcher
commands. -/
inductive Reachable : Room → Prop
  | init (id : String) (mp : Int) : Reachable (Room.init id mp)
  | step {r r' : Room} : Reachable r → Step r r' → Reachable r'

/-! ### Concrete players and room traces used in witnesses and counterexamples -/

/-- A concrete player whose name and display name differ. -/
def alice : Player := { id := "a", name := "na", display_name := "da" }

/-- A second concrete player. -/
def bob : Player := { id := "b", name := "nb", display_name := "db" }

/-- A third concrete player. -/
def charlie : Player := { id := "c", name := "nc", display_name := "dc" }

/-- Capacity-1 room trace: join, direct start, disconnect mid-game, refill with
a fresh player during the grace window, then reconnect the first player. -/
def capRoom0 : Room := Room.init "cap" 1

def capRoom1 : Room := (capRoom0.add_player alice).1

def capRoom2 : Room := capRoom1.start_game.1

def capRoom3 : Room := capRoom2.remove_player 0 "a"

def capRoom4 : Room := (capRoom3.add_player bob).1

def capRoom5 : Room := (capRoom4.add_player alice).1

/-- Grace trace: join, start, disconnect at time 0 (grace tracking begins),
then update at time 100, past the grace threshold. -/
def graceRoom0 : Room := ((Room.init "g" 2).add_player alice).1

def graceRoom1 : Room := graceRoom0.start_game.1

def graceRoom2 : Room := graceRoom1.remove_player 0 "a"

def graceRoom3 : Room := (graceRoom2.update id 100).1

/-- A reachable `FINISHED` room: the only waiting player leaves. -/
def doneRoom : Room := (((Room.init "d" 2).add_player alice).1).remove_player 5 "a"

/-- A two-player waiting lobby. -/
def lobby2 : Room := (((Room.init "l" 2).add_player alice).1.add_player bob).1

/-- The lobby after the first player readies up. -/
def lobby2a : Room := (lobby2.set_player_ready "a" true).1

/-- A room with one connected player, for chat properties. -/
def chatRoom : Room := ((Room.init "c8" 2).add_player alice).1

/-- The record held in `capRoom3.disconnected_players` for "a": alice as
spawned by `start_game` (slot 0) and saved by `remove_player`. -/
def aliceStored : Player :=
  { id := "a", name := "na", display_name := "da", ready := false,
    x := 100, y := 300, pending_actions := [], last_input_tick := 0 }

/-- The rejoin call's player value: same id, new presentation fields. -/
def aliceRejoin : Player := { id := "a", name := "NEW", display_name := "NEWD" }

end Game

namespace Game

/-! ### Association-list lemmas -/

lemma afind_ne_nil {l : List (String × Player)} {k : String} {v : Player}
    (h : afind l k = some v) : l ≠ [] := by
  cases l with
  | nil => simp [afind] at h
  | cons hd t => simp

lemma afind_eq_none_of_not_mem {l : List (String × Player)} {k : String}
    (h : k ∉ l.map Prod.fst) : afind l k = none := by
  induction l with
  | nil => rfl
  | cons hd t ih =>
      obtain ⟨k', v'⟩ := hd
      simp only [List.map_cons, List.mem_cons] at h
      push_neg at h
      simp only [afind]
      rw [if_neg (by exact fun hk => h.1 hk.symm)]
      exact ih h.2

lemma aemplace_eq_append {l : List (String × Player)} {k : String} (v : Player)
    (h : afind l k = none) : aemplace l k v = l ++ [(k, v)] := by
  simp [aemplace, h]

lemma afind_append_self {l : List (String × Player)} {k : String} (v : Player)
    (h : afind l k = none) : afind (l ++ [(k, v)]) k = some v := by
  induction l with
  | nil => simp [afind]
  | cons hd t ih =>
      obtain ⟨k', v'⟩ := hd
      simp only [afind] at h ⊢
      by_cases hk : k' = k
      · simp [hk] at h
      · rw [if_neg hk] at h ⊢
        exact ih h

lemma afind_aerase_self {l : List (String × Player)} {k : String}
    (h : (l.map Prod.fst).Nodup) : afind (aerase l k) k = none := by
  induction l with
  | nil => rfl
  | cons hd t ih =>
      obtain ⟨k', v'⟩ := hd
      simp only [List.map_cons, List.nodup_cons] at h
      simp only [aerase]
      by_cases hk : k' = k
      · rw [if_pos hk]
        subst hk
        exact afind_eq_none_of_not_mem h.1
      · rw [if_neg hk]
        simp only [afind]
        rw [if_neg hk]
        exact ih h.2

lemma aset_ne_nil (l : List (String × Player)) (k : String) (v : Player) :
    aset l k v ≠ [] := by
  cases l with
  | nil => simp [aset]
  | cons hd t =>
      obtain ⟨k', v'⟩ := hd
      simp only [aset]
      split <;> simp

lemma amodify_length (l : List (String × Player)) (k : String)
    (f : Player → Player) : (amodify l k f).length = l.length := by
  induction l with
  | nil => rfl
  | cons hd t ih =>
      obtain ⟨k', v'⟩ := hd
      simp only [amodify]
      split <;> simp [ih]

lemma amodify_ne_nil {l : List (String × Player)} (k : String)
    (f : Player → Player) (h : l ≠ []) : amodify l k f ≠ [] := by
  intro hc
  exact h (List.length_eq_zero.mp (by rw [← amodify_length l k f, hc]; rfl))

lemma spawnAll_length (l : List (String × Player)) (c : Nat) :
    ((Room.spawnAll l c).1).length = l.length := by
  induction l generalizing c with
  | nil => rfl
  | cons hd t ih =>
      obtain ⟨k', v'⟩ := hd
      simp [Room.spawnAll, ih]

lemma spawnAll_ne_nil {l : List (String × Player)} (c : Nat) (h : l ≠ []) :
    ((Room.spawnAll l c).1) ≠ [] := by
  intro hc
  exact h (List.length_eq_zero.mp (by rw [← spawnAll_length l c, hc]; rfl))

end Game

namespace Game

/-! ### The inductive room invariant -/

/-- The conjunction of state invariants that every reachable room satisfies:
a `WAITING` room has tick 0, no recoverable players and no grace timestamp;
a grace timestamp implies no connected players; a `FINISHED` room has no
recoverable players; and an empty `PLAYING` room with recoverable players is
grace-tracked. -/
structure Inv (r : Room) : Prop where
  waiting_tick : r.state = .WAITING → r.tick = 0
  waiting_disc : r.state = .WAITING → r.disconnected_players = []
  waiting_es : r.state = .WAITING → r.empty_since = none
  es_players : ∀ t, r.empty_since = some t → r.players = []
  finished_disc : r.state = .FINISHED → r.disconnected_players = []
  grace_tracked : r.players = [] → r.state = .PLAYING →
      r.disconnected_players ≠ [] → r.empty_since ≠ none

lemma inv_init (id : String) (mp : Int) : Inv (Room.init id mp) := by
  refine ⟨?_, ?_, ?_, ?_, ?_, ?_⟩ <;> simp [Room.init]

lemma aemplace_ne_nil (l : List (String × Player)) (k : String) (v : Player) :
    aemplace l k v ≠ [] := by
  cases l with
  | nil => simp [aemplace, afind]
  | cons hd t => unfold aemplace; split <;> simp

lemma not_has_player {r : Room} {k : String} (h : ¬ r.has_player k = true) :
    afind r.players k = none := by
  simp only [Room.has_player] at h
  cases hf : afind r.players k with
  | none => rfl
  | some v => rw [hf] at h; simp at h

lemma inv_add (r : Room) (p : Player) (h : Inv r) :
    Inv (Room.add_player r p).1 := by
  unfold Room.add_player
  split
  · exact h
  next hhas =>
    split
    next stored hfind =>
      have hne : r.disconnected_players ≠ [] := afind_ne_nil hfind
      refine ⟨?_, ?_, ?_, ?_, ?_, ?_⟩
      · exact fun hw => h.waiting_tick hw
      · intro hw
        exact absurd (h.waiting_disc hw) hne
      · intro _; rfl
      · intro t ht; cases ht
      · intro hf
        exact absurd (h.finished_disc hf) hne
      · exact fun hps => absurd hps (aemplace_ne_nil _ _ _)
    next hfind =>
      split
      · exact h
      split
      · exact h
      next hnf hns =>
        refine ⟨?_, ?_, ?_, ?_, ?_, ?_⟩
        · exact fun hw => h.waiting_tick hw
        · exact fun hw => h.waiting_disc hw
        · intro _; rfl
        · intro t ht; cases ht
        · exact fun hf => h.finished_disc hf
        · exact fun hps => absurd hps (aemplace_ne_nil _ _ _)

lemma aset_isEmpty_false (l : List (String × Player)) (k : String) (v : Player) :
    (aset l k v).isEmpty = false := by
  cases hl : aset l k v with
  | nil => exact absurd hl (aset_ne_nil l k v)
  | cons hd t => rfl

lemma inv_remove (r : Room) (now : Nat) (pid : String) (h : Inv r) :
    Inv (Room.remove_player r now pid) := by
  obtain ⟨rid, rmax, rstate, rplayers, rdisc, rtick, rns, res⟩ := r
  unfold Room.remove_player
  cases hfind : afind rplayers pid with
  | none => exact h
  | some rec =>
    have hnonempty : rplayers ≠ [] := afind_ne_nil hfind
    have hes : res = none := by
      cases hr : res with
      | none => rfl
      | some t => exact absurd (h.es_players t hr) hnonempty
    subst hes
    cases rstate with
    | WAITING =>
      have hdisc : rdisc = [] := h.waiting_disc rfl
      have htick : rtick = 0 := h.waiting_tick rfl
      subst hdisc htick
      by_cases hps : (aerase rplayers pid).isEmpty = true
      · have hps' : aerase rplayers pid = [] := List.isEmpty_iff.mp hps
        refine ⟨?_, ?_, ?_, ?_, ?_, ?_⟩ <;> simp [hps, hps']
      · refine ⟨?_, ?_, ?_, ?_, ?_, ?_⟩ <;> simp [hps]
    | PLAYING =>
      by_cases hps : (aerase rplayers pid).isEmpty = true
      · have hps' : aerase rplayers pid = [] := List.isEmpty_iff.mp hps
        refine ⟨?_, ?_, ?_, ?_, ?_, ?_⟩ <;>
          simp [hps, hps', aset_isEmpty_false]
      · have hps' : aerase rplayers pid ≠ [] := fun hc => hps (by simp [hc])
        refine ⟨?_, ?_, ?_, ?_, ?_, ?_⟩ <;> simp [hps, hps']
    | FINISHED =>
      have hdisc : rdisc = [] := h.finished_disc rfl
      subst hdisc
      by_cases hps : (aerase rplayers pid).isEmpty = true
      · have hps' : aerase rplayers pid = [] := List.isEmpty_iff.mp hps
        refine ⟨?_, ?_, ?_, ?_, ?_, ?_⟩ <;> simp [hps, hps']
      · refine ⟨?_, ?_, ?_, ?_, ?_, ?_⟩ <;> simp [hps]

lemma inv_start (r : Room) (h : Inv r) : Inv (Room.start_game r).1 := by
  obtain ⟨rid, rmax, rstate, rplayers, rdisc, rtick, rns, res⟩ := r
  unfold Room.start_game
  cases rstate with
  | WAITING =>
      have hdisc : rdisc = [] := h.waiting_disc rfl
      have hes : res = none := h.waiting_es rfl
      subst hdisc hes
      refine ⟨?_, ?_, ?_, ?_, ?_, ?_⟩ <;> simp
  | PLAYING => simpa using h
  | FINISHED => simpa using h

lemma inv_ready (r : Room) (pid : String) (b : Bool) (h : Inv r) :
    Inv (Room.set_player_ready r pid b).1 := by
  unfold Room.set_player_ready
  cases hfind : afind r.players pid with
  | none => exact h
  | some p0 =>
    have hnonempty : r.players ≠ [] := afind_ne_nil hfind
    have h1 : Inv { r with players := amodify r.players pid (fun p => { p with ready := b }) } := by
      refine ⟨?_, ?_, ?_, ?_, ?_, ?_⟩
      · exact fun hw => h.waiting_tick hw
      · exact fun hw => h.waiting_disc hw
      · exact fun hw => h.waiting_es hw
      · intro t ht; exact absurd (h.es_players t ht) hnonempty
      · exact fun hf => h.finished_disc hf
      · intro hpl; exact absurd hpl (amodify_ne_nil _ _ hnonempty)
    dsimp only
    split
    · exact inv_start _ h1
    · exact h1

lemma inv_update (r : Room) (f : Player → Player) (now : Nat) (h : Inv r) :
    Inv (Room.update r f now).1 := by
  obtain ⟨rid, rmax, rstate, rplayers, rdisc, rtick, rns, res⟩ := r
  unfold Room.update
  cases rstate with
  | WAITING => simpa using h
  | FINISHED => simpa using h
  | PLAYING =>
    cases hres : res with
    | none =>
      subst hres
      by_cases hpl : rplayers.isEmpty = true
      · simpa [hpl] using h
      · have hpl' : rplayers ≠ [] := fun hc => hpl (by simp [hc])
        refine ⟨?_, ?_, ?_, ?_, ?_, ?_⟩ <;> simp [hpl, hpl']
    | some t =>
      subst hres
      have hpl : rplayers = [] := h.es_players t rfl
      subst hpl
      by_cases hg : GRACE_SECONDS ≤ now - t
      · refine ⟨?_, ?_, ?_, ?_, ?_, ?_⟩ <;> simp [hg]
      · simpa [hg] using h

lemma inv_queue (r : Room) (pid : String) (t : Int) (a : List String)
    (h : Inv r) : Inv (Room.queue_input r pid t a) := by
  unfold Room.queue_input
  cases hfind : afind r.players pid with
  | none => exact h
  | some p0 =>
    have hnonempty : r.players ≠ [] := afind_ne_nil hfind
    refine ⟨?_, ?_, ?_, ?_, ?_, ?_⟩
    · exact fun hw => h.waiting_tick hw
    · exact fun hw => h.waiting_disc hw
    · exact fun hw => h.waiting_es hw
    · intro t' ht'; exact absurd (h.es_players t' ht') hnonempty
    · exact fun hf => h.finished_disc hf
    · intro hpl; exact absurd hpl (amodify_ne_nil _ _ hnonempty)

lemma inv_step {r r' : Room} (h : Inv r) (s : Step r r') : Inv r' := by
  cases s with
  | add p => exact inv_add _ p h
  | remove now pid => exact inv_remove _ now pid h
  | ready pid b => exact inv_ready _ pid b h
  | start => exact inv_start _ h
  | upd f now => exact inv_update _ f now h
  | queue pid t a => exact inv_queue _ pid t a h

/-- Every reachable room satisfies the invariant `Inv`. -/
lemma reachable_inv {r : Room} (h : Reachable r) : Inv r := by
  induction h with
  | init id mp => exact inv_init id mp
  | step _ s ih => exact inv_step ih s

/-! ### Reachability of the concrete traces -/

lemma reachable_capRoom5 : Reachable capRoom5 := by
  have h0 : Reachable capRoom0 := Reachable.init "cap" 1
  have h1 : Reachable capRoom1 := h0.step (Step.add capRoom0 alice)
  have h2 : Reachable capRoom2 := h1.step (Step.start capRoom1)
  have h3 : Reachable capRoom3 := h2.step (Step.remove capRoom2 0 "a")
  have h4 : Reachable capRoom4 := h3.step (Step.add capRoom3 bob)
  exact h4.step (Step.add capRoom4 alice)

lemma reachable_graceRoom2 : Reachable graceRoom2 := by
  have h0 : Reachable (Room.init "g" 2) := Reachable.init "g" 2
  have h1 : Reachable graceRoom0 := h0.step (Step.add (Room.init "g" 2) alice)
  have h2 : Reachable graceRoom1 := h1.step (Step.start graceRoom0)
  exact h2.step (Step.remove graceRoom1 0 "a")

lemma reachable_graceRoom3 : Reachable graceRoom3 :=
  reachable_graceRoom2.step (Step.upd graceRoom2 id 100)

lemma reachable_doneRoom : Reachable doneRoom := by
  have h0 : Reachable (Room.init "d" 2) := Reachable.init "d" 2
  have h1 : Reachable ((Room.init "d" 2).add_player alice).1 :=
    h0.step (Step.add (Room.init "d" 2) alice)
  exact h1.step (Step.remove ((Room.init "d" 2).add_player alice).1 5 "a")

lemma reachable_lobby2a : Reachable lobby2a := by
  have h0 : Reachable (Room.init "l" 2) := Reachable.init "l" 2
  have h1 : Reachable ((Room.init "l" 2).add_player alice).1 :=
    h0.step (Step.add (Room.init "l" 2) alice)
  have h2 : Reachable lobby2 :=
    h1.step (Step.add ((Room.init "l" 2).add_player alice).1 bob)
  exact h2.step (Step.ready lobby2 "a" true)

/-! ### Tick behaviour of each operation -/

lemma tick_add (r : Room) (p : Player) :
    (Room.add_player r p).1.tick = r.tick := by
  unfold Room.add_player
  split
  · rfl
  split
  · rfl
  split
  · rfl
  split
  · rfl
  · rfl

lemma tick_remove (r : Room) (now : Nat) (pid : String) :
    (Room.remove_player r now pid).tick = r.tick := by
  unfold Room.remove_player
  split
  · rfl
  · dsimp only
    repeat' split
    all_goals rfl

lemma tick_start (r : Room) (h0 : r.state = .WAITING → r.tick = 0) :
    (Room.start_game r).1.tick = r.tick := by
  unfold Room.start_game
  split
  · rfl
  next hw => exact (h0 (not_not.mp hw)).symm

lemma tick_ready (r : Room) (pid : String) (b : Bool)
    (h0 : r.state = .WAITING → r.tick = 0) :
    (Room.set_player_ready r pid b).1.tick = r.tick := by
  unfold Room.set_player_ready
  cases hfind : afind r.players pid with
  | none => rfl
  | some p0 =>
      dsimp only
      split
      · exact tick_start _ (fun hw => h0 hw)
      · rfl

lemma tick_queue (r : Room) (pid : String) (t : Int) (a : List String) :
    (Room.queue_input r pid t a).tick = r.tick := by
  unfold Room.queue_input
  split
  · rfl
  · rfl

lemma tick_update_cases (r : Room) (f : Player → Player) (now : Nat) :
    (Room.update r f now).1.tick = r.tick ∨
    ((Room.update r f now).1.tick = r.tick + 1 ∧ r.state = .PLAYING ∧
      r.players ≠ []) := by
  unfold Room.update
  split
  next hs => exact Or.inl rfl
  next hs =>
    dsimp only
    split
    · exact Or.inl rfl
    split
    · exact Or.inl rfl
    next hne =>
      exact Or.inr ⟨rfl, not_not.mp hs, fun hc => hne (by rw [hc]; rfl)⟩

lemma tick_update_skip (r : Room) (f : Player → Player) (now : Nat)
    (hside : r.state ≠ .PLAYING ∨ r.players = []) :
    (Room.update r f now).1.tick = r.tick := by
  cases tick_update_cases r f now with
  | inl h => exact h
  | inr h =>
      cases hside with
      | inl hc => exact absurd h.2.1 hc
      | inr hc => exact absurd hc h.2.2

lemma tick_step_le (r r' : Room) (h0 : r.state = .WAITING → r.tick = 0)
    (s : Step r r') : r.tick ≤ r'.tick := by
  cases s with
  | add p => exact le_of_eq (tick_add r p).symm
  | remove now pid => exact le_of_eq (tick_remove r now pid).symm
  | ready pid b => exact le_of_eq (tick_ready r pid b h0).symm
  | start => exact le_of_eq (tick_start r h0).symm
  | upd f now =>
      cases tick_update_cases r f now with
      | inl h => exact le_of_eq h.symm
      | inr h => exact h.1 ▸ Nat.le_succ r.tick
  | queue pid t a => exact le_of_eq (tick_queue r pid t a).symm

/-! ### Lobby and start helpers -/

lemma all_ready_short (r : Room) (h : r.players.length ≤ 1) :
    r.all_ready = false := by
  unfold Room.all_ready
  split
  · rfl
  split
  · rfl
  next hlt => exact absurd (by omega) hlt

lemma start_game_waiting (r : Room) (hw : r.state = .WAITING) :
    (Room.start_game r).1.state = .PLAYING ∧
    (Room.start_game r).2 =
      [Event.game_start 1
        ((Room.spawnAll r.players 0).1.map (fun e => (e.1, e.2.x, e.2.y)))] := by
  unfold Room.start_game
  rw [if_neg (not_not_intro hw)]
  exact ⟨rfl, rfl⟩

lemma start_game_not_waiting (r : Room) (h : r.state ≠ .WAITING) :
    Room.start_game r = (r, []) := by
  unfold Room.start_game
  rw [if_pos h]

lemma no_game_start_of_not_waiting (r : Room) (pid : String) (b : Bool)
    (h : r.state ≠ .WAITING) :
    ((Room.set_player_ready r pid b).2).filter Event.isGameStart = [] := by
  unfold Room.set_player_ready
  cases hfind : afind r.players pid with
  | none => rfl
  | some p0 =>
      dsimp only
      rw [if_neg (fun hc => h hc.2)]
      rfl

lemma set_ready_no_start (r : Room) (pid : String) (b : Bool)
    (h : r.players.length ≤ 1) :
    (Room.set_player_ready r pid b).1.state = r.state ∧
    ((Room.set_player_ready r pid b).2.filter Event.isGameStart) = [] := by
  unfold Room.set_player_ready
  cases hfind : afind r.players pid with
  | none => exact ⟨rfl, rfl⟩
  | some p0 =>
      dsimp only
      rw [if_neg ?_]
      · exact ⟨rfl, rfl⟩
      · intro hc
        have hf : Room.all_ready { r with players := amodify r.players pid (fun p => { p with ready := b }) } = false := by
          apply all_ready_short
          dsimp only
          rw [amodify_length]
          exact h
        exact Bool.noConfusion (hf.symm.trans hc.1)

/-! ### Claim C1 -/

/-- C1 (counterexample): `start_game` is not guarded by the ready quorum. On a
freshly created (reachable) `WAITING` room with zero connected players — far
below the two-player all-ready quorum — `start_game` still fires the
transition to `PLAYING` instead of being silently ignored. -/
theorem C1_counterexample :
    Reachable (Room.init "c1" 4) ∧
    (Room.init "c1" 4).state = RoomState.WAITING ∧
    (Room.init "c1" 4).players.length < 2 ∧
    (Room.start_game (Room.init "c1" 4)).1.state = RoomState.PLAYING :=
  ⟨Reachable.init "c1" 4, rfl, by decide, rfl⟩

/-- C1 (amended): `start_game` is guarded only by the room state: in a
`WAITING` room it always fires the `WAITING → PLAYING` transition, regardless
of how many players are connected or ready; a call while the room is not in
`WAITING` is silently ignored and leaves the room (and the outbound event
stream) unchanged. The ready quorum is enforced only at `start_game`'s
auto-start call site inside `set_player_ready`. -/
theorem C1_start_state_guard (r : Room) :
    (r.state = .WAITING → (Room.start_game r).1.state = .PLAYING) ∧
    (r.state ≠ .WAITING → Room.start_game r = (r, [])) :=
  ⟨fun hw => (start_game_waiting r hw).1, fun hn => start_game_not_waiting r hn⟩

/-- Witness for C1 (amended) at a concrete waiting room. -/
theorem C1_amended_witness :
    (Room.init "c1w" 2).state = RoomState.WAITING ∧
    (Room.start_game (Room.init "c1w" 2)).1.state = RoomState.PLAYING :=
  ⟨rfl, (C1_start_state_guard (Room.init "c1w" 2)).1 rfl⟩

/-! ### Claim C2 -/

/-- C2 (counterexample): the stated iff fails in a reachable room. After the
grace period of `graceRoom2` expires inside `update`, the room is `FINISHED`
with no disconnected players, yet `empty_since` is still set — the grace-expiry
branch never resets it — so "`empty_since` is set only if the state is
`PLAYING` and `disconnected_players` is non-empty" is violated. -/
theorem C2_counterexample :
    Reachable graceRoom3 ∧ graceRoom3.empty_since = some 0 ∧
    graceRoom3.state = RoomState.FINISHED ∧
    graceRoom3.disconnected_players = [] :=
  ⟨reachable_graceRoom3, rfl, rfl, rfl⟩

/-- C2 (amended): in every reachable room, if the connected-players map is
empty, the state is `PLAYING` and `disconnected_players` is non-empty then
`empty_since` is set, and whenever `empty_since` is set the connected-players
map is empty; the converse direction fails only because the grace-expiry
transition to `FINISHED` does not clear `empty_since`. Every successful
`add_player` call clears `empty_since`. -/
theorem C2_empty_since_characterization (r : Room) (h : Reachable r) :
    (r.players = [] → r.state = .PLAYING → r.disconnected_players ≠ [] →
        r.empty_since ≠ none) ∧
    (∀ t, r.empty_since = some t → r.players = []) ∧
    (∀ p, (Room.add_player r p).2 = true →
        (Room.add_player r p).1.empty_since = none) := by
  have hi := reachable_inv h
  refine ⟨hi.grace_tracked, hi.es_players, fun p => ?_⟩
  unfold Room.add_player
  split
  · exact fun hc => Bool.noConfusion hc
  split
  · exact fun _ => rfl
  split
  · exact fun hc => Bool.noConfusion hc
  split
  · exact fun hc => Bool.noConfusion hc
  · exact fun _ => rfl

/-- Witness for C2 (amended): a successful join clears `empty_since`. -/
theorem C2_amended_witness :
    (Room.add_player (Room.init "c2w" 2) alice).2 = true ∧
    (Room.add_player (Room.init "c2w" 2) alice).1.empty_since = none :=
  ⟨rfl, (C2_empty_since_characterization _ (Reachable.init "c2w" 2)).2.2 alice rfl⟩

/-! ### Claim C3 -/

/-- C3 (counterexample): the capacity invariant is not preserved by
reconnects. `capRoom5` is reachable: a capacity-1 room starts playing with
"a", "a" disconnects, fresh player "b" fills the single slot during the grace
window, and then "a" reconnects — the reconnect branch of `add_player`
performs no capacity check, leaving 2 connected players in a 1-capacity
room. -/
theorem C3_counterexample :
    Reachable capRoom5 ∧ capRoom5.max_players = 1 ∧
    capRoom5.player_count = 2 ∧
    capRoom5.max_players < capRoom5.player_count :=
  ⟨reachable_capRoom5, rfl, by decide, by decide⟩

/-- C3 (amended): the capacity check guards only fresh joins: a fresh join
(an id not held in `disconnected_players`) into a full room always fails and
leaves the room unchanged, and a successful fresh join never pushes
`player_count` above `max_players`; reconnects bypass the check, so a
reconnect into a room refilled to capacity during the grace window can exceed
`max_players`. -/
theorem C3_capacity (r : Room) (p : Player)
    (hd : afind r.disconnected_players p.id = none) :
    (r.is_full = true → Room.add_player r p = (r, false)) ∧
    ((Room.add_player r p).2 = true →
        (Room.add_player r p).1.player_count ≤ r.max_players) := by
  constructor
  · intro hfull
    unfold Room.add_player
    split
    · rfl
    · rw [hd]
  · intro hsucc
    have hh : ¬ (r.has_player p.id = true) := by
      intro hcon
      unfold Room.add_player at hsucc
      rw [if_pos hcon] at hsucc
      exact Bool.noConfusion hsucc
    have hfull : ¬ (r.is_full = true) := by
      intro hfull
      unfold Room.add_player at hsucc
      rw [if_neg hh, hd] at hsucc
      dsimp only at hsucc
      rw [if_pos hfull] at hsucc
      exact Bool.noConfusion hsucc
    have hfin : ¬ (r.state = RoomState.FINISHED) := by
      intro hfin
      unfold Room.add_player at hsucc
      rw [if_neg hh, hd] at hsucc
      dsimp only at hsucc
      rw [if_neg hfull, if_pos hfin] at hsucc
      exact Bool.noConfusion hsucc
    have hfp : afind r.players p.id = none := not_has_player hh
    have hkey : afind r.players (if r.state = RoomState.PLAYING then
        p.spawn (spawn_positions (r.next_spawn % 4)).1
          (spawn_positions (r.next_spawn % 4)).2 else p).id = none := by
      split
      · exact hfp
      · exact hfp
    unfold Room.add_player
    rw [if_neg hh, hd]
    dsimp only
    rw [if_neg hfull, if_neg hfin]
    dsimp only
    unfold Room.player_count
    dsimp only
    rw [aemplace_eq_append _ hkey]
    simp only [List.length_append, List.length_singleton]
    unfold Room.is_full at hfull
    simp only [decide_eq_true_eq] at hfull
    push_cast
    omega

/-- Witness for C3 (amended): joining a fresh player into a full room fails. -/
theorem C3_amended_witness :
    lobby2.is_full = true ∧ Room.add_player lobby2 charlie = (lobby2, false) :=
  ⟨rfl, (C3_capacity lobby2 charlie rfl).1 rfl⟩

/-! ### Claim C4 -/

/-- C4: `all_ready` is false for every empty or single-player room; a room
with exactly one connected player never auto-starts on `set_player_ready`
(its state is unchanged and no game-start event is broadcast); and a
`WAITING` room with exactly two connected players, when the second
`set_player_ready(_, true)` makes both ready, auto-starts: the state becomes
`PLAYING` and exactly one game-start event is broadcast, and no later
`set_player_ready` call can emit another one. -/
theorem C4_auto_start (r : Room) :
    (r.players.length ≤ 1 → r.all_ready = false) ∧
    (∀ k p, r.players = [(k, p)] → ∀ pid b,
        (Room.set_player_ready r pid b).1.state = r.state ∧
        ((Room.set_player_ready r pid b).2.filter Event.isGameStart) = []) ∧
    (∀ k1 p1 k2 p2, r.players = [(k1, p1), (k2, p2)] → k1 ≠ k2 →
        p1.ready = true → r.state = .WAITING →
        (Room.set_player_ready r k2 true).1.state = .PLAYING ∧
        ((Room.set_player_ready r k2 true).2.filter Event.isGameStart).length
          = 1 ∧
        ∀ pid b,
          (((Room.set_player_ready r k2 true).1.set_player_ready pid b).2.filter
            Event.isGameStart) = []) := by
  refine ⟨all_ready_short r, ?_, ?_⟩
  · intro k p hpl pid b
    exact set_ready_no_start r pid b (by rw [hpl]; exact le_refl 1)
  · intro k1 p1 k2 p2 hpl hne hr1 hw
    have hfind : afind r.players k2 = some p2 := by
      rw [hpl]; simp [afind, hne]
    have hmod : amodify r.players k2 (fun p => { p with ready := true }) = [(k1, p1), (k2, { p2 with ready := true })] := by
      rw [hpl]; simp [amodify, hne]
    have hall : Room.all_ready { r with players := amodify r.players k2 (fun p => { p with ready := true }) } = true := by
      unfold Room.all_ready
      dsimp only
      rw [hmod]
      simp [hr1]
    have hw1 : Room.state { r with players := amodify r.players k2 (fun p => { p with ready := true }) } = .WAITING := hw
    have hsg := start_game_waiting _ hw1
    have happ : Room.set_player_ready r k2 true =
        ((Room.start_game { r with players := amodify r.players k2 (fun p => { p with ready := true }) }).1,
          Event.player_ready_state k2 true ::
            (Room.start_game { r with players := amodify r.players k2 (fun p => { p with ready := true }) }).2) := by
      unfold Room.set_player_ready
      rw [hfind]
      dsimp only
      rw [if_pos ⟨hall, hw⟩]
      rfl
    rw [happ]
    refine ⟨hsg.1, ?_, ?_⟩
    · rw [hsg.2]
      rfl
    · intro pid b
      apply no_game_start_of_not_waiting
      rw [hsg.1]
      decide

/-- Witness for C4 at a concrete two-player lobby with "a" already ready:
readying "b" auto-starts the game with exactly one game-start broadcast. -/
theorem C4_witness :
    (lobby2a.set_player_ready "b" true).1.state = RoomState.PLAYING ∧
    ((lobby2a.set_player_ready "b" true).2.filter Event.isGameStart).length
      = 1 := by
  have h := (C4_auto_start lobby2a).2.2 "a" { alice with ready := true } "b" bob
    rfl (by decide) rfl rfl
  exact ⟨h.1, h.2.1⟩

/-! ### Claim C5 -/

/-- C5: reconnect semantics of `add_player`. For every id held in
`disconnected_players` and not currently connected, `add_player` succeeds,
the record inserted into `players` is the stored record with only `name` and
`display_name` overwritten by the rejoin call's values (so position,
readiness, pending actions and last input tick are preserved), and the id is
removed from `disconnected_players`. The `stored.id = p.id` and key-nodup
hypotheses hold for every map maintained by the room operations. -/
theorem C5_reconnect_restores (r : Room) (p stored : Player)
    (hd : afind r.disconnected_players p.id = some stored)
    (hid : stored.id = p.id)
    (hc : r.has_player p.id = false)
    (hnd : (r.disconnected_players.map Prod.fst).Nodup) :
    (Room.add_player r p).2 = true ∧
    afind (Room.add_player r p).1.players p.id =
      some { stored with name := p.name, display_name := p.display_name } ∧
    afind (Room.add_player r p).1.disconnected_players p.id = none := by
  have hh : ¬ (r.has_player p.id = true) := by
    rw [hc]; exact Bool.noConfusion
  have hfp : afind r.players p.id = none := not_has_player hh
  have key : Room.add_player r p =
      ({ r with
          players := aemplace r.players stored.id
            { stored with name := p.name, display_name := p.display_name },
          disconnected_players := aerase r.disconnected_players p.id,
          empty_since := none }, true) := by
    unfold Room.add_player
    rw [if_neg hh, hd]
  refine ⟨by rw [key], ?_, ?_⟩
  · rw [key]
    dsimp only
    rw [hid, aemplace_eq_append _ hfp]
    exact afind_append_self _ hfp
  · rw [key]
    dsimp only
    exact afind_aerase_self hnd

/-- Witness for C5: "a" reconnects to `capRoom3` with new presentation
fields; the restored record keeps the stored spawn position and flags. -/
theorem C5_witness :
    (Room.add_player capRoom3 aliceRejoin).2 = true ∧
    afind (Room.add_player capRoom3 aliceRejoin).1.players "a" =
      some { aliceStored with name := "NEW", display_name := "NEWD" } ∧
    afind (Room.add_player capRoom3 aliceRejoin).1.disconnected_players "a"
      = none :=
  C5_reconnect_restores capRoom3 aliceRejoin aliceStored rfl rfl rfl (by decide)

/-! ### Claim C6 -/

/-- C6: grace expiry inside `update`. For every `PLAYING` room whose
`empty_since` is set, an `update` at a time at least `GRACE_SECONDS` past the
timestamp moves the state to `FINISHED`, empties `disconnected_players`, and
returns without ticking or broadcasting. -/
theorem C6_grace_expiry (r : Room) (t now : Nat) (f : Player → Player)
    (hs : r.state = .PLAYING) (he : r.empty_since = some t)
    (hg : GRACE_SECONDS ≤ now - t) :
    (Room.update r f now).1.state = .FINISHED ∧
    (Room.update r f now).1.disconnected_players = [] ∧
    (Room.update r f now).1.tick = r.tick ∧
    (Room.update r f now).2 = [] := by
  have key : Room.update r f now =
      ({ r with state := .FINISHED, disconnected_players := [] }, []) := by
    unfold Room.update
    rw [if_neg (not_not_intro hs), he]
    dsimp only
    rw [if_pos (decide_eq_true hg)]
  exact ⟨by rw [key], by rw [key], by rw [key], by rw [key]⟩

/-- Witness for C6 on the concrete grace trace. -/
theorem C6_witness :
    graceRoom2.state = RoomState.PLAYING ∧
    graceRoom2.empty_since = some 0 ∧
    (graceRoom2.update id 100).1.state = RoomState.FINISHED ∧
    (graceRoom2.update id 100).1.disconnected_players = [] ∧
    (graceRoom2.update id 100).1.tick = graceRoom2.tick ∧
    (graceRoom2.update id 100).2 = [] := by
  have h := C6_grace_expiry graceRoom2 0 100 id rfl rfl (by decide)
  exact ⟨rfl, rfl, h.1, h.2.1, h.2.2.1, h.2.2.2⟩

/-! ### Claim C7 -/

/-- C7: tick monotonicity. In every reachable room, each dispatcher step can
only increase the tick; `add_player`, `remove_player`, `set_player_ready`,
`start_game` and `queue_input` never change it, and `update` leaves it
unchanged whenever the room is not `PLAYING` or has no connected players —
so the tick changes only during an `update` in `PLAYING` with at least one
player connected, and never while `WAITING` or `FINISHED`. -/
theorem C7_tick_monotonic (r : Room) (h : Reachable r) :
    (∀ r', Step r r' → r.tick ≤ r'.tick) ∧
    (∀ p, (Room.add_player r p).1.tick = r.tick) ∧
    (∀ now pid, (Room.remove_player r now pid).tick = r.tick) ∧
    (∀ pid b, (Room.set_player_ready r pid b).1.tick = r.tick) ∧
    ((Room.start_game r).1.tick = r.tick) ∧
    (∀ pid t a, (Room.queue_input r pid t a).tick = r.tick) ∧
    (∀ f now, (r.state ≠ .PLAYING ∨ r.players = []) →
        (Room.update r f now).1.tick = r.tick) := by
  have h0 := (reachable_inv h).waiting_tick
  exact ⟨fun r' s => tick_step_le r r' h0 s, tick_add r, tick_remove r,
    fun pid b => tick_ready r pid b h0, tick_start r h0, tick_queue r,
    fun f now hside => tick_update_skip r f now hside⟩

/-- Witness for C7 at a concrete reachable room. -/
theorem C7_witness :
    (Room.add_player (Room.init "c7" 3) alice).1.tick
      = (Room.init "c7" 3).tick :=
  (C7_tick_monotonic (Room.init "c7" 3) (Reachable.init "c7" 3)).2.1 alice

/-! ### Claim C8 -/

/-- C8 (counterexample): the chat event does not carry the sender's display
name. In `chatRoom`, the sender's `name` is "na" and `display_name` is "da";
`handle_chat` broadcasts the event carrying "na", not the display name. -/
theorem C8_counterexample :
    Room.handle_chat chatRoom "a" "hi" = [Event.chat_message "a" "na" "hi"] ∧
    (Room.get_player chatRoom "a").map Player.display_name = some "da" ∧
    Room.handle_chat chatRoom "a" "hi" ≠ [Event.chat_message "a" "da" "hi"] :=
  ⟨rfl, rfl, by decide⟩

/-- C8 (amended): `handle_chat` is a no-op for senders that are not
connected; for a connected sender it broadcasts exactly one chat event whose
fields are the sender's id, the sender's `name` field (not the display name),
and the message text verbatim. -/
theorem C8_chat_event (r : Room) (sid msg : String) :
    (Room.get_player r sid = none → Room.handle_chat r sid msg = []) ∧
    (∀ p, Room.get_player r sid = some p →
        Room.handle_chat r sid msg = [Event.chat_message sid p.name msg]) := by
  constructor
  · intro h0; unfold Room.handle_chat; rw [h0]
  · intro p hp; unfold Room.handle_chat; rw [hp]

/-- Witness for C8 (amended) on the concrete chat room. -/
theorem C8_amended_witness :
    Room.handle_chat chatRoom "a" "hello"
      = [Event.chat_message "a" "na" "hello"] :=
  (C8_chat_event chatRoom "a" "hello").2 alice rfl

/-! ### Claim C9 -/

/-- C9: in every reachable room, a set `empty_since` implies that the
connected-players map is empty — no reachable state has `empty_since` set
while a player is connected. -/
theorem C9_empty_since_implies_no_players (r : Room) (h : Reachable r)
    (t : Nat) (he : r.empty_since = some t) : r.players = [] :=
  (reachable_inv h).es_players t he

/-- Witness for C9 on the concrete grace trace. -/
theorem C9_witness :
    graceRoom2.empty_since = some 0 ∧ graceRoom2.players = [] :=
  ⟨rfl, C9_empty_since_implies_no_players graceRoom2 reachable_graceRoom2 0 rfl⟩

/-! ### Claim C10 -/

/-- C10: in every reachable `FINISHED` room, `disconnected_players` is empty,
and consequently every `add_player` call fails — the reconnect branch can
never fire in a `FINISHED` room even though it performs no state check. -/
theorem C10_finished_rejects_joins (r : Room) (h : Reachable r)
    (hf : r.state = .FINISHED) :
    r.disconnected_players = [] ∧ ∀ p, (Room.add_player r p).2 = false := by
  have hd := (reachable_inv h).finished_disc hf
  refine ⟨hd, fun p => ?_⟩
  unfold Room.add_player
  split
  · rfl
  · rw [hd]
    dsimp only [afind]
    split
    · rfl
    · rfl

/-- Witness for C10 on a concrete reachable finished room. -/
theorem C10_witness :
    doneRoom.state = RoomState.FINISHED ∧
    doneRoom.disconnected_players = [] ∧
    (Room.add_player doneRoom bob).2 = false := by
  have h := C10_finished_rejects_joins doneRoom reachable_doneRoom rfl
  exact ⟨rfl, h.1, h.2 bob⟩

end Game
